import Mathlib

/-!
Verification development for the gamry-parser repository (files
`gamry_parser/vfp600.py` and `gamry_parser/eispot.py`).

The Python code is shallowly embedded: the text stream handed to
`VFP600._read_curve_data` is a list of lines plus a cursor position
(`readline` at end of stream returns the empty string and leaves the
cursor unchanged, exactly like Python's file objects, which is what the
stall check in the source relies on); the `pandas.read_csv` call and the
DataFrame operations used by the source (`df.index * scalar`,
`df["T"] = ...` in-place column assignment, `df[[...]]` projection) are
modelled by the `Table` structure and the functions `read_csv`,
`timeVals`, `setColumn` and `project` below.  Python exceptions
(AssertionError from the `assert self.loaded` guard, IndexError, KeyError)
are modelled with the `PResult`/`PError` types.  Numeric cell values are
rationals: float parsing of decimal literals is exact at the magnitudes
exercised here, and the claims under study do not depend on rounding.
-/

/-- Python `str.strip` whitespace predicate. -/
def isWS (c : Char) : Bool :=
  c = ' ' || c = '\t' || c = '\n' || c = '\r' || c = '\x0b' || c = '\x0c'

/-- Python `str.strip()`: drop leading and trailing whitespace. -/
def pyStrip (s : String) : String :=
  String.mk (((s.data.dropWhile isWS).reverse.dropWhile isWS).reverse)

/-- Helper for `splitTab`: split a character list on tab characters. -/
def splitTabAux : List Char → List Char → List String
  | [], cur => [String.mk cur.reverse]
  | c :: rest, cur =>
    if c = '\t' then String.mk cur.reverse :: splitTabAux rest []
    else splitTabAux rest (c :: cur)

/-- Python `s.split("\t")`: always returns at least one (possibly empty) field. -/
def splitTab (s : String) : List String :=
  splitTabAux s.data []

/-- `startsWithL p s`: the character list `s` starts with `p`. -/
def startsWithL : List Char → List Char → Bool
  | [], _ => true
  | _ :: _, [] => false
  | p :: ps, c :: cs => p = c && startsWithL ps cs

/-- Substring search for the literal sentinel marker, on character lists. -/
def containsCURVE : List Char → Bool
  | [] => false
  | c :: cs => startsWithL ['C', 'U', 'R', 'V', 'E'] (c :: cs) || containsCURVE cs

/-- Python `re.search(r"CURVE", s)`: the line contains the literal `CURVE`. -/
def hasCURVE (s : String) : Bool := containsCURVE s.data

/-- Decimal digit run to its numeric value. -/
def digitsVal (cs : List Char) : Nat :=
  cs.foldl (fun a c => a * 10 + (c.toNat - 48)) 0

/-- All characters are decimal digits. -/
def allDigits (cs : List Char) : Bool :=
  cs.all (fun c => c.isDigit)

/-- Split a character list at the first dot, if any. -/
def splitDot : List Char → List Char × Option (List Char)
  | [] => ([], none)
  | c :: rest =>
    if c = '.' then ([], some rest)
    else
      let r := splitDot rest
      (c :: r.1, r.2)

/-- Numeric inference performed by `pandas.read_csv` on a cell: an optional
sign, a digit run, and an optional fractional digit run parse to an exact
rational; anything else is left as text. -/
def parseDecimal (s : String) : Option ℚ :=
  let signBody : ℤ × List Char :=
    match s.data with
    | '-' :: r => (-1, r)
    | '+' :: r => (1, r)
    | r => (1, r)
  let ipfp := splitDot signBody.2
  match ipfp.2 with
  | none =>
    if ipfp.1 ≠ [] ∧ allDigits ipfp.1 = true then
      some (mkRat (signBody.1 * digitsVal ipfp.1) 1)
    else none
  | some fp =>
    if ipfp.1 ≠ [] ∧ fp ≠ [] ∧ allDigits ipfp.1 = true ∧ allDigits fp = true then
      some (mkRat (signBody.1 * (digitsVal ipfp.1 * 10 ^ fp.length + digitsVal fp))
        (10 ^ fp.length))
    else none

/-- One cell of a parsed table: a number, a leftover text field, or the
NaN that `pandas.read_csv` fills missing trailing fields with. -/
inductive Cell where
  | num (q : ℚ)
  | str (s : String)
  | nan
deriving DecidableEq, Repr

/-- Parse one delimited field as `pandas.read_csv` would. -/
def parseCell (s : String) : Cell :=
  match parseDecimal s with
  | some q => Cell.num q
  | none => Cell.str s

/-- A named-column table, modelling the `pandas.DataFrame` values the source
builds: an ordered list of column names and rows of cells (row `i` carries
the default `RangeIndex` label `i`). -/
structure Table where
  cols : List String
  rows : List (List Cell)
deriving DecidableEq, Repr

/-- The Python exceptions this code can surface: the `assert self.loaded`
guard (AssertionError, the "not loaded" kind), list IndexError, the
KeyError raised by DataFrame column projection, and the
`pandas.errors.ParserError` raised by `read_csv` on a body row with more
fields than expected. -/
inductive PError where
  | notLoaded
  | indexError
  | keyError
  | parserError
deriving DecidableEq, Repr

/-- Outcome of a Python call: a returned value or a raised exception. -/
inductive PResult (α : Type) where
  | ok (a : α)
  | error (e : PError)
deriving DecidableEq, Repr

/-- Right-pad a parsed row with NaN cells up to the column count, as
`pandas.read_csv` does for rows with missing trailing fields. -/
def padRow (n : Nat) (cells : List Cell) : List Cell :=
  cells ++ List.replicate (n - cells.length) Cell.nan

/-- `pd.read_csv(StringIO(text), delimiter="\t", header=0)` on the
newline-joined `text` lines: the first line gives the column names, each
following non-blank line one row (blank lines are skipped, per the
default `skip_blank_lines=True`).  The C engine fixes the expected field
count at the wider of the header row and the first data row: when the
first data row is wider, its leading extra fields become row-index
labels (dropped from the data columns here — the source consumes only
the columns and the row count); any row wider than that expected count
raises `ParserError`; narrower rows are right-padded with NaN. -/
def read_csv (text : List String) : PResult Table :=
  match text with
  | [] => PResult.ok ⟨[], []⟩
  | h :: body =>
    let cols := splitTab h
    let rawRows := (body.filter (fun l => l ≠ "")).map splitTab
    let expected := max cols.length ((rawRows.headD []).length)
    if rawRows.all (fun r => r.length ≤ expected) then
      PResult.ok ⟨cols,
        rawRows.map (fun r =>
          padRow cols.length ((r.drop (expected - cols.length)).map parseCell))⟩
    else PResult.error PError.parserError

/-- Python `fid.readline()` on a line stream: return the line at the cursor
and advance, or return `""` and leave the cursor unchanged at end of
stream (so `fid.tell()` stalls exactly at EOF). -/
def readline (lines : List String) (pos : Nat) : String × Nat :=
  match lines[pos]? with
  | some l => (l, pos + 1)
  | none => ("", pos)

/-- The accumulation loop of `VFP600._read_curve_data` (vfp600.py lines
101-106), recursing on the remaining lines `rem = lines.drop pos`:
while the current (stripped) line does not contain `CURVE`, append it to
the accumulated body and read the next line; when the read does not
advance the cursor (end of stream), append the current line and stop.
The sentinel line itself is consumed but never appended. -/
def readLoop : List String → Nat → String → List String → List String × Nat
  | rem, pos, curLine, acc =>
    if hasCURVE curLine then (acc, pos)
    else
      match rem with
      | [] => (acc ++ [curLine], pos)
      | l :: rest => readLoop rest (pos + 1) (pyStrip l) (acc ++ [curLine])

/-- `VFP600._read_curve_data` (vfp600.py lines 83-112): read the
column-name line (returning the empty result if it strips to nothing),
read the units line and split it on tabs, accumulate body lines until a
sentinel or a stalled read, parse the block with `read_csv` (whose
`ParserError` propagates out of the function), and return
`(keys, units[1:], table)` together with the final cursor position. -/
def read_curve_data (lines : List String) (pos : Nat) :
    PResult ((List String × List String × Table) × Nat) :=
  let r0 := readline lines pos
  let hdr := pyStrip r0.1
  if hdr = "" then PResult.ok (([], [], ⟨[], []⟩), r0.2)
  else
    let r1 := readline lines r0.2
    let units := splitTab (pyStrip r1.1)
    let r2 := readline lines r1.2
    let body := readLoop (lines.drop r2.2) r2.2 (pyStrip r2.1) []
    match read_csv (hdr :: body.1) with
    | PResult.error e => PResult.error e
    | PResult.ok tbl => PResult.ok ((tbl.cols, units.drop 1, tbl), body.2)

/-- The state a `GamryParser` object carries between calls: the `loaded`
flag, the experiment header mapping `_header` (the `FREQ` entry, the only
one this code reads, is numeric), and the curve table list `_curves`. -/
structure GamryParserState where
  loaded : Bool
  header : List (String × ℚ)
  curves : List Table
deriving DecidableEq, Repr

/-- Modelled from the spec: the `GamryParser` base class (its `__init__` is
not under src/) starts each object in the Unloaded state of the section-4.2
state machine: `loaded` false, header and curve-table sequence not yet
populated (empty). -/
def unloadedState : GamryParserState := ⟨false, [], []⟩

/-- Python `dict.get k`: the first binding of `k`, if any. -/
def headerGet (h : List (String × ℚ)) (k : String) : Option ℚ :=
  (h.find? (fun p => p.1 = k)).map (fun p => p.2)

/-- Resolve a Python list index (negative values count from the end) to a
position, or `none` when out of range (IndexError). -/
def pyResolve (n : Nat) (i : ℤ) : Option Nat :=
  if 0 ≤ i then (if i.toNat < n then some i.toNat else none)
  else (if i.natAbs ≤ n then some (n - i.natAbs) else none)

/-- Python `l[i]` on a list, with negative indexing. -/
def pyGet {α : Type} (l : List α) (i : ℤ) : Option α :=
  (pyResolve l.length i).bind (fun j => l[j]?)

/-- Python `l[i] = a` on a list, with negative indexing (no-op out of
range, where the read side already raises). -/
def pySet {α : Type} (l : List α) (i : ℤ) (a : α) : List α :=
  match pyResolve l.length i with
  | some j => l.set j a
  | none => l

/-- First position of a column name in a column list (`df.columns`
lookup used by cell selection). -/
def findCol : List String → String → Option Nat
  | [], _ => none
  | c :: cs, name => if c = name then some 0 else (findCol cs name).map (fun i => i + 1)

/-- Cell of a row at a column position (rows produced by `read_csv` on
well-formed bodies are rectangular; the default never surfaces there). -/
def cellAt (r : List Cell) (i : Nat) : Cell := r.getD i (Cell.str "")

/-- `df[[names]]`: project a table onto the listed columns in the listed
order; `none` models the KeyError on a missing column name. -/
def project (t : Table) (names : List String) : Option Table :=
  if names.all (fun n => (findCol t.cols n).isSome) then
    some ⟨names, t.rows.map (fun r => names.map (fun n => cellAt r ((findCol t.cols n).getD 0)))⟩
  else none

/-- `df.index * st` (vfp600.py line 51): the default `RangeIndex`
`0, 1, ...` of the table scaled by the sample period. -/
def timeVals (t : Table) (st : ℚ) : List Cell :=
  (List.range t.rows.length).map (fun (i : Nat) => Cell.num (i * st))

/-- `df[name] = vals` in-place column assignment: overwrite the column in
place when the name exists, otherwise append it as a new last column. -/
def setColumn (t : Table) (name : String) (vals : List Cell) : Table :=
  match findCol t.cols name with
  | some i => ⟨t.cols, (t.rows.zip vals).map (fun rv => rv.1.set i rv.2)⟩
  | none => ⟨t.cols ++ [name], (t.rows.zip vals).map (fun rv => rv.1 ++ [rv.2])⟩

/-- `VFP600.sample_time` (vfp600.py lines 54-67): `1 / freq` when the
header holds a truthy (non-zero) `FREQ`, else `0`. Total: never raises. -/
def VFP600.sample_time (p : GamryParserState) : ℚ :=
  match headerGet p.header "FREQ" with
  | some freq => if freq ≠ 0 then 1 / freq else 0
  | none => 0

/-- `VFP600.sample_count` (vfp600.py lines 69-81):
`len(self._curves[curve - 1].index) if len(self._curves) > 0 else 0`.
Note the source declares it a `@property`, so Python can only ever invoke
it with the default `curve = 0`. -/
def VFP600.sample_count (p : GamryParserState) (curve : ℤ) : PResult Nat :=
  if p.curves.length > 0 then
    match pyGet p.curves (curve - 1) with
    | some df => PResult.ok df.rows.length
    | none => PResult.error PError.indexError
  else PResult.ok 0

/-- `VFP600.curve` (vfp600.py lines 36-52): after the loaded guard, fetch
`self._curves[curve]`, assign `df["T"] = df.index * self.sample_time`
in place (the stored curve list is updated with the mutated table), and
return the projection `df[["T", "Voltage", "Current"]]`.  The returned
pair carries the observable result and the post-call object state. -/
def VFP600.curve (p : GamryParserState) (curve : ℤ) :
    PResult (Table × GamryParserState) :=
  if p.loaded then
    match pyGet p.curves curve with
    | none => PResult.error PError.indexError
    | some df =>
      let df2 := setColumn df "T" (timeVals df (VFP600.sample_time p))
      let p2 : GamryParserState := ⟨p.loaded, p.header, pySet p.curves curve df2⟩
      match project df2 ["T", "Voltage", "Current"] with
      | none => PResult.error PError.keyError
      | some out => PResult.ok (out, p2)
  else PResult.error PError.notLoaded

/-- `Impedance.curve` (eispot.py lines 7-26): after the loaded guard,
fetch `self._curves[curve]` and return the fixed projection; no stored
state is touched. -/
def Impedance.curve (p : GamryParserState) (curve : ℤ) :
    PResult (Table × GamryParserState) :=
  if p.loaded then
    match pyGet p.curves curve with
    | none => PResult.error PError.indexError
    | some df =>
      match project df ["T", "Freq", "Zreal", "Zimag", "Zmod", "Zphz"] with
      | none => PResult.error PError.keyError
      | some out => PResult.ok (out, p)
  else PResult.error PError.notLoaded

/-- Concrete one-row chronoamperometry curve table. -/
def tabOneRow : Table := ⟨["Voltage", "Current"], [[Cell.num 1, Cell.num 2]]⟩

/-- Concrete two-row chronoamperometry curve table. -/
def tabTwoRows : Table :=
  ⟨["Voltage", "Current"], [[Cell.num 1, Cell.num 2], [Cell.num 3, Cell.num 4]]⟩

/-- A loaded parser holding two curves of different row counts. -/
def twoCurveState : GamryParserState := ⟨true, [], [tabOneRow, tabTwoRows]⟩

/-- A loaded parser holding one zero-row Voltage/Current curve. -/
def loadedVC : GamryParserState := ⟨true, [], [⟨["Voltage", "Current"], []⟩]⟩

/-- `loadedVC` after `VFP600.curve 0` has written the `T` column into the
stored table. -/
def loadedVCAfter : GamryParserState :=
  ⟨true, [], [⟨["Voltage", "Current", "T"], []⟩]⟩

/-- A parser whose header records a sampling frequency of 2 Hz. -/
def freqState : GamryParserState := ⟨true, [("FREQ", 2)], []⟩

/-- C1: for the synthetic stream
`"Vf\tVj\nV\tV\n1.0\t2.0\n2.0\t3.0\nCURVE\tOVERLOAD\n"`,
`_read_curve_data` returns column names `["Vf","Vj"]`, units `["V"]`
(first raw unit entry dropped), and a table with exactly the two rows
`{Vf:1.0, Vj:2.0}` and `{Vf:2.0, Vj:3.0}`; the final cursor position `5`
is one past the sentinel line, which is consumed from the stream and
excluded from the table. -/
theorem c1_round_trip_extraction :
    read_curve_data ["Vf\tVj", "V\tV", "1.0\t2.0", "2.0\t3.0", "CURVE\tOVERLOAD"] 0 =
      PResult.ok ((["Vf", "Vj"], ["V"],
        ⟨["Vf", "Vj"],
         [[Cell.num 1, Cell.num 2], [Cell.num 2, Cell.num 3]]⟩), 5) := by
  decide

/-- C2 counterexample: on the Unloaded state, `VFP600.sample_count` and
`VFP600.sample_time` do not fail with the "not loaded" error kind: the
former returns `0` (its source has no loaded guard and the empty curve
list takes the `else 0` branch) and the latter returns `0` (no guard, no
`FREQ` key). This refutes the claim that every accessor other than `load`
fails fast while Unloaded. -/
theorem c2_counterexample :
    VFP600.sample_count unloadedState 0 = PResult.ok 0 ∧
    VFP600.sample_count unloadedState 0 ≠ PResult.error PError.notLoaded ∧
    VFP600.sample_time unloadedState = 0 := by
  decide

/-- C2 amended: while Unloaded, `Impedance.curve` and `VFP600.curve` fail
fast with the "not loaded" error kind (their `assert self.loaded` guard),
but `VFP600.sample_time` and `VFP600.sample_count` have no loaded guard:
on a fresh Unloaded parser they return `0` and `ok 0` respectively. -/
theorem c2_unloaded_accessors (p : GamryParserState) (h : p.loaded = false) (c : ℤ) :
    Impedance.curve p c = PResult.error PError.notLoaded ∧
    VFP600.curve p c = PResult.error PError.notLoaded ∧
    VFP600.sample_time unloadedState = 0 ∧
    VFP600.sample_count unloadedState c = PResult.ok 0 := by
  refine ⟨?_, ?_, rfl, ?_⟩
  · simp [Impedance.curve, h]
  · simp [VFP600.curve, h]
  · simp [VFP600.sample_count, unloadedState]

/-- C2 witness: the amended statement instantiated at the Unloaded state
and curve index 0. -/
theorem c2_unloaded_accessors_witness :
    Impedance.curve unloadedState 0 = PResult.error PError.notLoaded ∧
    VFP600.curve unloadedState 0 = PResult.error PError.notLoaded ∧
    VFP600.sample_time unloadedState = 0 ∧
    VFP600.sample_count unloadedState 0 = PResult.ok 0 :=
  c2_unloaded_accessors unloadedState (by decide) 0

/-- C3: evaluation at the failing input. On a loaded parser whose curve 0
has one row and curve 1 has two rows, `sample_count` invoked with its
(forced, being a `@property`) default index `0` reads
`self._curves[0 - 1]`, i.e. the LAST curve by Python negative indexing,
and returns `2`, while the curve at index 0 has 1 row — the claimed
"row count of the curve at index i" is wrong on the code. -/
theorem c3_sample_count_eval :
    VFP600.sample_count twoCurveState 0 = PResult.ok 2 ∧
    (twoCurveState.curves[0]?).map (fun t => t.rows.length) = some 1 := by
  decide

/-- C5: `VFP600.sample_time` equals `1 / FREQ` when the header holds a
non-zero `FREQ`, and `0` when the key is absent or zero; being a total
function into `ℚ` it never raises, for every header mapping. -/
theorem c5_sample_time_total (p : GamryParserState) :
    (∀ f : ℚ, headerGet p.header "FREQ" = some f → f ≠ 0 →
      VFP600.sample_time p = 1 / f) ∧
    (headerGet p.header "FREQ" = none → VFP600.sample_time p = 0) ∧
    (headerGet p.header "FREQ" = some 0 → VFP600.sample_time p = 0) := by
  refine ⟨?_, ?_, ?_⟩
  · intro f hf hne
    simp [VFP600.sample_time, hf, hne]
  · intro hf
    simp [VFP600.sample_time, hf]
  · intro hf
    simp [VFP600.sample_time, hf]

/-- C5 witness: a header with `FREQ = 2` gives sample period `1 / 2`. -/
theorem c5_sample_time_total_witness :
    VFP600.sample_time freqState = 1 / 2 :=
  (c5_sample_time_total freqState).1 2 (by decide) (by decide)

/-- C8: when the would-be column-name line is empty or the stream is
exhausted, `_read_curve_data` returns the empty result (no columns, no
units, empty table) and the final cursor is at most one past the starting
position: no further lines are read, and nothing is raised. -/
theorem c8_empty_header (lines : List String) (pos : Nat)
    (h : pyStrip (readline lines pos).1 = "") :
    read_curve_data lines pos = PResult.ok (([], [], ⟨[], []⟩), (readline lines pos).2) ∧
    (readline lines pos).2 ≤ pos + 1 := by
  constructor
  · simp [read_curve_data, h]
  · unfold readline
    cases lines[pos]? <;> simp

/-- C8 witness: a stream whose next line is blank. -/
theorem c8_empty_header_witness :
    read_curve_data ["", "x"] 0 = PResult.ok (([], [], ⟨[], []⟩), (readline ["", "x"] 0).2) ∧
    (readline ["", "x"] 0).2 ≤ 0 + 1 :=
  c8_empty_header ["", "x"] 0 (by decide)

theorem pyStrip_empty : pyStrip "" = "" := rfl

theorem hasCURVE_empty : hasCURVE "" = false := rfl

/-- The accumulation loop on a sentinel-free stream consumes every
remaining line (the cursor ends `rem.length` further on, i.e. at end of
stream, where the stall check fires) and appends each stripped line to
the body, in order. -/
theorem readLoop_no_sentinel (rem : List String) :
    ∀ (pos : Nat) (cur : String) (acc : List String),
      hasCURVE cur = false →
      (∀ l ∈ rem, hasCURVE (pyStrip l) = false) →
      readLoop rem pos cur acc = (acc ++ cur :: rem.map pyStrip, pos + rem.length) := by
  induction rem with
  | nil =>
    intro pos cur acc hcur _
    simp [readLoop, hcur]
  | cons l rest ih =>
    intro pos cur acc hcur hrem
    rw [readLoop]
    simp only [hcur, Bool.false_eq_true, if_false]
    rw [ih (pos + 1) (pyStrip l) (acc ++ [cur]) (hrem l (by simp))
      (fun x hx => hrem x (by simp [hx]))]
    congr 1
    · simp
    · simp
      omega

/-- For a table block whose header line is followed by an ok return,
the column names come from the header line split on tabs. -/
theorem read_csv_cols (h : String) (body : List String) (tbl : Table)
    (hok : read_csv (h :: body) = PResult.ok tbl) : tbl.cols = splitTab h := by
  simp only [read_csv] at hok
  split at hok
  · cases hok; rfl
  · cases hok

/-- `read_csv` on a block none of whose non-blank body lines has more
tab-separated fields than the header line succeeds: no implicit index,
no `ParserError`; every non-blank body line becomes one (NaN-padded)
data row, in order. -/
theorem read_csv_narrow (h : String) (body : List String)
    (hn : ∀ l ∈ body, l ≠ "" → (splitTab l).length ≤ (splitTab h).length) :
    read_csv (h :: body) = PResult.ok ⟨splitTab h,
      (body.filter (fun l => l ≠ "")).map
        (fun l => padRow (splitTab h).length ((splitTab l).map parseCell))⟩ := by
  have hraw : ∀ r ∈ (body.filter (fun l => l ≠ "")).map splitTab,
      r.length ≤ (splitTab h).length := by
    intro r hr
    rcases List.mem_map.mp hr with ⟨l, hl, rfl⟩
    exact hn l (List.mem_of_mem_filter hl) (by simpa using List.of_mem_filter hl)
  have hhead : (((body.filter (fun l => l ≠ "")).map splitTab).headD []).length
      ≤ (splitTab h).length := by
    cases hrows : (body.filter (fun l => l ≠ "")).map splitTab with
    | nil => simp
    | cons r0 rs =>
      exact hraw r0 (by rw [hrows]; exact List.mem_cons_self r0 rs)
  have hexp : max (splitTab h).length
      ((((body.filter (fun l => l ≠ "")).map splitTab).headD []).length)
      = (splitTab h).length := Nat.max_eq_left hhead
  have hall : (((body.filter (fun l => l ≠ "")).map splitTab).all
      (fun r => r.length ≤ (splitTab h).length)) = true := by
    rw [List.all_eq_true]
    intro r hr
    simpa using hraw r hr
  simp only [read_csv, hexp, hall, if_true, Nat.sub_self, List.drop_zero, List.map_map]
  rfl

/-- C9 counterexample: the stream `["A\tB", "V\tV", "1\t2", "1\t2\t3"]`
has no sentinel line after the column-name and units lines, yet the
extractor raises `ParserError` (the final body row has three fields
where two are expected, so `pd.read_csv` fails) — so not every remaining
non-blank line appears as a data row of a returned table, refuting the
claim that the extraction raises no error on every sentinel-free
stream. -/
theorem c9_counterexample :
    (∀ l ∈ ["1\t2", "1\t2\t3"], hasCURVE (pyStrip l) = false) ∧
    pyStrip "A\tB" ≠ "" ∧
    read_curve_data ["A\tB", "V\tV", "1\t2", "1\t2\t3"] 0 =
      PResult.error PError.parserError := by
  decide

/-- C9 amended: on a finite stream with a non-blank column-name line, a
units line, and a body containing no sentinel line, the accumulation
loop terminates with the cursor at end of stream (the stall check is
what stops it) and accumulates every remaining line; when additionally
no non-blank body line has more tab-separated fields than the
column-name line (the tolerance of the underlying `pd.read_csv`, which
otherwise raises `ParserError`), the extraction raises no error and
every remaining non-blank line of the stream appears, in order, as a
(NaN-padded) data row of the returned table. -/
theorem c9_no_sentinel_all_rows (hdr u : String) (body : List String)
    (hhdr : pyStrip hdr ≠ "")
    (hbody : ∀ l ∈ body, hasCURVE (pyStrip l) = false)
    (hwidth : ∀ l ∈ body, pyStrip l ≠ "" →
      (splitTab (pyStrip l)).length ≤ (splitTab (pyStrip hdr)).length) :
    read_curve_data (hdr :: u :: body) 0 =
      PResult.ok
        ((splitTab (pyStrip hdr),
          (splitTab (pyStrip u)).drop 1,
          ⟨splitTab (pyStrip hdr),
           ((body.map pyStrip).filter (fun l => l ≠ "")).map
             (fun l => padRow (splitTab (pyStrip hdr)).length
               ((splitTab l).map parseCell))⟩),
         body.length + 2) := by
  cases body with
  | nil =>
    have hloop : readLoop [] 2 (pyStrip "") [] = ([""], 2) := rfl
    have hcsv := read_csv_narrow (pyStrip hdr) [""]
      (fun l hl hne => absurd (List.eq_of_mem_singleton hl) hne)
    simp only [read_curve_data, readline, List.getElem?_cons_zero, List.getElem?_cons_succ,
      List.getElem?_nil, List.drop_succ_cons, List.drop_nil, hloop, hcsv]
    rw [if_neg hhdr]
    rfl
  | cons b rest =>
    have hloop := readLoop_no_sentinel rest 3 (pyStrip b) []
      (hbody b (by simp)) (fun x hx => hbody x (by simp [hx]))
    have hn : ∀ l ∈ pyStrip b :: rest.map pyStrip, l ≠ "" →
        (splitTab l).length ≤ (splitTab (pyStrip hdr)).length := by
      intro l hl hlne
      rcases List.mem_cons.mp hl with rfl | hl2
      · exact hwidth b (by simp) hlne
      · rcases List.mem_map.mp hl2 with ⟨x, hx, rfl⟩
        exact hwidth x (by simp [hx]) hlne
    have hcsv := read_csv_narrow (pyStrip hdr) (pyStrip b :: rest.map pyStrip) hn
    simp only [read_curve_data, readline, List.getElem?_cons_zero, List.getElem?_cons_succ,
      List.getElem?_nil, List.drop_succ_cons, List.drop_zero, Nat.reduceAdd, hloop,
      List.nil_append, hcsv]
    rw [if_neg hhdr]
    simp only [List.map_cons, List.length_cons]
    have h3 : 3 + rest.length = rest.length + 1 + 2 := by omega
    rw [h3]

/-- C9 witness: a concrete sentinel-free stream with three body lines,
one of them blank, all within the header's field count; the two
non-blank lines become the data rows and the cursor ends at position
5 = end of stream. -/
theorem c9_no_sentinel_all_rows_witness :
    read_curve_data ["A\tB", "V\tV", "1\t2", "", "3\t4"] 0 =
      PResult.ok
        ((splitTab (pyStrip "A\tB"),
          (splitTab (pyStrip "V\tV")).drop 1,
          ⟨splitTab (pyStrip "A\tB"),
           ((["1\t2", "", "3\t4"].map pyStrip).filter (fun l => l ≠ "")).map
             (fun l => padRow (splitTab (pyStrip "A\tB")).length
               ((splitTab l).map parseCell))⟩),
         ["1\t2", "", "3\t4"].length + 2) :=
  c9_no_sentinel_all_rows "A\tB" "V\tV" ["1\t2", "", "3\t4"]
    (by decide) (by decide) (by decide)

/-- C6 counterexample: for the stream whose column-name line has two
fields but whose units line has three, `_read_curve_data` returns two
units and two column names, so the unit list is NOT one shorter than the
column-name list. The dropped first raw entry makes the unit count one
less than the units line's field count, which is unrelated to the column
count. -/
theorem c6_counterexample :
    read_curve_data ["A\tB", "V\tV\tV", "CURVE"] 0 =
      PResult.ok ((["A", "B"], ["V", "V"], ⟨["A", "B"], []⟩), 3) ∧
    ¬ ((["V", "V"] : List String).length = (["A", "B"] : List String).length - 1) := by
  decide

/-- C6 amended: whenever the column-name line is non-blank and the units
line splits into exactly as many tab-separated fields as the column-name
line (the well-formed layout), the returned unit list has length exactly
one less than the returned column-name list. -/
theorem c6_units_length (lines : List String) (pos : Nat)
    (r : (List String × List String × Table) × Nat)
    (hret : read_curve_data lines pos = PResult.ok r)
    (hhdr : pyStrip (readline lines pos).1 ≠ "")
    (heq : (splitTab (pyStrip (readline lines (readline lines pos).2).1)).length =
           (splitTab (pyStrip (readline lines pos).1)).length) :
    r.1.2.1.length = r.1.1.length - 1 := by
  simp only [read_curve_data] at hret
  rw [if_neg hhdr] at hret
  split at hret
  · cases hret
  · next tbl hcsv =>
    cases hret
    simp only [List.length_drop, heq, read_csv_cols _ _ _ hcsv]

/-- C6 witness: the amended statement at the round-trip stream, whose
units line and column-name line both have two fields. -/
theorem c6_units_length_witness :
    ((((["Vf", "Vj"], ["V"], ⟨["Vf", "Vj"], []⟩) :
        List String × List String × Table), 3)).1.2.1.length =
      ((((["Vf", "Vj"], ["V"], ⟨["Vf", "Vj"], []⟩) :
        List String × List String × Table), 3)).1.1.length - 1 :=
  c6_units_length ["Vf\tVj", "V\tV", "CURVE"] 0
    (((["Vf", "Vj"], ["V"], ⟨["Vf", "Vj"], []⟩), 3)) (by decide) (by decide) (by decide)

/-- C4 counterexample: on a loaded parser holding one Voltage/Current
curve, `VFP600.curve 0` succeeds and the stored curve list afterwards
differs from the one before the call — the in-place
`df["T"] = df.index * self.sample_time` assignment (vfp600.py line 51)
mutates the stored curve table, so accessors do not leave the stored
tables unchanged. -/
theorem c4_counterexample :
    VFP600.curve loadedVC 0 =
      PResult.ok (⟨["T", "Voltage", "Current"], []⟩, loadedVCAfter) ∧
    loadedVCAfter.curves ≠ loadedVC.curves := by
  decide

/-- C4 amended: the stored header (and the loaded flag) are unchanged by
every accessor call, and `Impedance.curve` leaves the whole state
unchanged; but a successful `VFP600.curve` replaces the stored curve at
the requested index by its T-augmented version (the sole state effect of
any accessor). -/
theorem c4_frame_amended (p : GamryParserState) (c : ℤ) (df : Table)
    (hdf : pyGet p.curves c = some df) :
    (∀ t p2, Impedance.curve p c = PResult.ok (t, p2) → p2 = p) ∧
    (∀ t p2, VFP600.curve p c = PResult.ok (t, p2) →
      p2.loaded = p.loaded ∧ p2.header = p.header ∧
      p2.curves = pySet p.curves c
        (setColumn df "T" (timeVals df (VFP600.sample_time p)))) := by
  constructor
  · intro t p2 h
    by_cases hl : p.loaded = true
    · simp only [Impedance.curve, hl, if_true, hdf] at h
      cases hpr : project df ["T", "Freq", "Zreal", "Zimag", "Zmod", "Zphz"] with
      | none => simp [hpr] at h
      | some out => simp only [hpr] at h; cases h; rfl
    · simp only [Impedance.curve, hl, if_false] at h; cases h
  · intro t p2 h
    by_cases hl : p.loaded = true
    · simp only [VFP600.curve, hl, if_true, hdf] at h
      cases hpr : project (setColumn df "T" (timeVals df (VFP600.sample_time p)))
          ["T", "Voltage", "Current"] with
      | none => simp [hpr] at h
      | some out => simp only [hpr] at h; cases h; exact ⟨hl.symm, rfl, rfl⟩
    · simp only [VFP600.curve, hl, if_false] at h; cases h

/-- C4 witness: the amended statement at the concrete loaded parser,
whose stored curve gains the `T` column. -/
theorem c4_frame_amended_witness :
    loadedVCAfter.loaded = loadedVC.loaded ∧
    loadedVCAfter.header = loadedVC.header ∧
    loadedVCAfter.curves = pySet loadedVC.curves 0
      (setColumn ⟨["Voltage", "Current"], []⟩ "T"
        (timeVals ⟨["Voltage", "Current"], []⟩ (VFP600.sample_time loadedVC))) :=
  (c4_frame_amended loadedVC 0 ⟨["Voltage", "Current"], []⟩ (by decide)).2
    ⟨["T", "Voltage", "Current"], []⟩ loadedVCAfter (by decide)

theorem findCol_lt (cs : List String) (n : String) (j : Nat)
    (h : findCol cs n = some j) : j < cs.length := by
  induction cs generalizing j with
  | nil => simp [findCol] at h
  | cons c cs ih =>
    rw [findCol] at h
    by_cases hc : c = n
    · rw [if_pos hc] at h; cases h; exact Nat.succ_pos cs.length
    · rw [if_neg hc] at h
      cases hfc : findCol cs n with
      | none => rw [hfc] at h; cases h
      | some k =>
        rw [hfc] at h
        simp only [Option.map_some'] at h
        cases h
        have := ih k hfc
        simp only [List.length_cons]
        omega

theorem findCol_append_self (cs : List String) (x : String)
    (h : findCol cs x = none) : findCol (cs ++ [x]) x = some cs.length := by
  induction cs with
  | nil => simp [findCol]
  | cons c cs ih =>
    rw [findCol] at h
    by_cases hc : c = x
    · rw [if_pos hc] at h; cases h
    · rw [List.cons_append, findCol, if_neg hc]
      have h2 : findCol cs x = none := by
        rw [if_neg hc] at h
        cases hfc : findCol cs x with
        | none => rfl
        | some k => rw [hfc] at h; cases h
      rw [ih h2]
      simp

theorem getD_map_lt {α β : Type} (f : α → β) (l : List α) (i : Nat) (d : α) (d2 : β)
    (hi : i < l.length) :
    (l.map f).getD i d2 = f (l.getD i d) := by
  rw [List.getD_eq_getElem?_getD, List.getD_eq_getElem?_getD,
    List.getElem?_eq_getElem (l := l.map f) (by simpa using hi),
    List.getElem?_eq_getElem hi]
  simp

theorem getD_zip_map_lt {α β γ : Type} (f : α → β → γ) (l1 : List α) (l2 : List β)
    (i : Nat) (d1 : α) (d2 : β) (dg : γ) (h1 : i < l1.length) (h2 : i < l2.length) :
    ((l1.zip l2).map (fun ab => f ab.1 ab.2)).getD i dg = f (l1.getD i d1) (l2.getD i d2) := by
  have hz : i < (l1.zip l2).length := by
    simp only [List.length_zip]
    omega
  rw [getD_map_lt _ _ i (d1, d2) dg hz]
  rw [List.getD_eq_getElem?_getD, List.getElem?_eq_getElem hz]
  rw [List.getD_eq_getElem?_getD (l := l1), List.getElem?_eq_getElem h1]
  rw [List.getD_eq_getElem?_getD (l := l2), List.getElem?_eq_getElem h2]
  simp [List.getElem_zip]

theorem timeVals_length (t : Table) (st : ℚ) :
    (timeVals t st).length = t.rows.length := by
  unfold timeVals
  rw [List.length_map, List.length_range]

theorem timeVals_getD (t : Table) (st : ℚ) (i : Nat) (d : Cell)
    (hi : i < t.rows.length) :
    (timeVals t st).getD i d = Cell.num (i * st) := by
  unfold timeVals
  rw [getD_map_lt (fun k : Nat => Cell.num (k * st)) (List.range t.rows.length) i 0 d
    (by rw [List.length_range]; exact hi)]
  rw [List.getD_eq_getElem?_getD,
    List.getElem?_eq_getElem (by rw [List.length_range]; exact hi)]
  rw [List.getElem_range]
  rfl

theorem getD_set_self_lt (l : List Cell) (j : Nat) (v d : Cell) (h : j < l.length) :
    (l.set j v).getD j d = v := by
  rw [List.getD_eq_getElem?_getD,
    List.getElem?_eq_getElem (l := l.set j v) (by simpa using h)]
  simp [List.getElem_set_self]

theorem getD_append_length (l : List Cell) (v d : Cell) :
    (l ++ [v]).getD l.length d = v := by
  induction l with
  | nil => rfl
  | cons a as ih => exact ih

theorem setColumn_rows_length (t : Table) (name : String) (vals : List Cell)
    (h : vals.length = t.rows.length) :
    (setColumn t name vals).rows.length = t.rows.length := by
  unfold setColumn
  cases findCol t.cols name <;> simp [List.length_zip, h]

/-- C7: whenever `VFP600.curve` returns a table (loaded parser, in-range
index, the stored curve rectangular as every DataFrame is), the returned
columns are exactly `[T, Voltage, Current]` in that order, the row count
matches the stored curve, and for every row the `T` value equals the row
index times the sample period `VFP600.sample_time p` (itself `1/FREQ`, or
`0` when `FREQ` is absent or zero). -/
theorem c7_curve_columns_time (p : GamryParserState) (c : ℤ) (df t : Table)
    (p2 : GamryParserState)
    (hdf : pyGet p.curves c = some df)
    (hrect : ∀ r ∈ df.rows, r.length = df.cols.length)
    (h : VFP600.curve p c = PResult.ok (t, p2)) :
    t.cols = ["T", "Voltage", "Current"] ∧
    t.rows.length = df.rows.length ∧
    ∀ i, i < df.rows.length →
      (t.rows.getD i []).getD 0 (Cell.str "") =
        Cell.num (i * VFP600.sample_time p) := by
  by_cases hl : p.loaded = true
  case neg => simp only [VFP600.curve, hl, if_false] at h; cases h
  case pos =>
  simp only [VFP600.curve, hl, if_true, hdf] at h
  have hvlen : (timeVals df (VFP600.sample_time p)).length = df.rows.length :=
    timeVals_length df _
  have hd2len :
      (setColumn df "T" (timeVals df (VFP600.sample_time p))).rows.length =
        df.rows.length :=
    setColumn_rows_length df "T" _ hvlen
  cases hpr : project (setColumn df "T" (timeVals df (VFP600.sample_time p)))
      ["T", "Voltage", "Current"] with
  | none => simp [hpr] at h
  | some out =>
    simp only [hpr] at h
    cases h
    rw [project] at hpr
    split at hpr
    case isFalse => cases hpr
    case isTrue hall =>
    injection hpr with hout
    subst hout
    refine ⟨rfl, ?_, ?_⟩
    · simp only [List.length_map]
      exact hd2len
    · intro i hi
      rw [getD_map_lt _ _ i [] [] (by rw [hd2len]; exact hi)]
      simp only [List.map_cons, List.getD_cons_zero]
      have hmem : df.rows.getD i [] ∈ df.rows := by
        rw [List.getD_eq_getElem?_getD, List.getElem?_eq_getElem hi]
        exact List.getElem_mem hi
      cases hfc : findCol df.cols "T" with
      | some j =>
        have hj : j < df.cols.length := findCol_lt df.cols "T" j hfc
        simp only [setColumn, hfc, cellAt, Option.getD_some]
        rw [getD_zip_map_lt (fun r v => r.set j v) df.rows
          (timeVals df (VFP600.sample_time p)) i [] (Cell.str "") [] hi
          (by rw [hvlen]; exact hi)]
        rw [timeVals_getD df _ i _ hi]
        exact getD_set_self_lt _ j _ _ (by rw [hrect _ hmem]; exact hj)
      | none =>
        simp only [setColumn, hfc, cellAt]
        rw [findCol_append_self df.cols "T" hfc]
        simp only [Option.getD_some]
        rw [getD_zip_map_lt (fun r v => r ++ [v]) df.rows
          (timeVals df (VFP600.sample_time p)) i [] (Cell.str "") [] hi
          (by rw [hvlen]; exact hi)]
        rw [timeVals_getD df _ i _ hi]
        rw [← hrect _ hmem]
        exact getD_append_length _ _ _

/-- C7 witness: on the concrete loaded parser `loadedVC`, `curve 0`
returns the table with columns `[T, Voltage, Current]` and as many rows
as the stored curve. -/
theorem c7_curve_columns_time_witness :
    (⟨["T", "Voltage", "Current"], []⟩ : Table).cols = ["T", "Voltage", "Current"] ∧
    (⟨["T", "Voltage", "Current"], []⟩ : Table).rows.length =
      (⟨["Voltage", "Current"], []⟩ : Table).rows.length :=
  ⟨(c7_curve_columns_time loadedVC 0 ⟨["Voltage", "Current"], []⟩
      ⟨["T", "Voltage", "Current"], []⟩ loadedVCAfter (by decide) (by decide) (by decide)).1,
   (c7_curve_columns_time loadedVC 0 ⟨["Voltage", "Current"], []⟩
      ⟨["T", "Voltage", "Current"], []⟩ loadedVCAfter (by decide) (by decide) (by decide)).2.1⟩

theorem timeVals_eq_of_length (t1 t2 : Table) (st : ℚ)
    (h : t1.rows.length = t2.rows.length) :
    timeVals t1 st = timeVals t2 st := by
  unfold timeVals
  rw [h]

theorem pyGet_pySet_self {α : Type} (l : List α) (i : ℤ) (a b : α)
    (h : pyGet l i = some a) : pyGet (pySet l i b) i = some b := by
  unfold pyGet at h
  unfold pyGet pySet
  cases hr : pyResolve l.length i with
  | none => rw [hr] at h; cases h
  | some j =>
    rw [hr] at h
    simp only [Option.bind_eq_bind, Option.some_bind] at h
    have hj : j < l.length := (List.getElem?_eq_some_iff.mp h).1
    simp only [hr, List.length_set, Option.bind_eq_bind, Option.some_bind]
    exact List.getElem?_set_self hj

theorem set_append_length_self (l : List Cell) (v : Cell) :
    (l ++ [v]).set l.length v = l ++ [v] := by
  induction l with
  | nil => rfl
  | cons a as ih =>
    simp only [List.cons_append, List.length_cons, List.set_cons_succ]
    rw [ih]

theorem zip_map_set_idem (j : Nat) (rows : List (List Cell)) :
    ∀ vals : List Cell,
      ((((rows.zip vals).map (fun rv => rv.1.set j rv.2)).zip vals).map
        (fun rv => rv.1.set j rv.2)) =
      (rows.zip vals).map (fun rv => rv.1.set j rv.2) := by
  induction rows with
  | nil => intro vals; simp
  | cons r rs ih =>
    intro vals
    cases vals with
    | nil => simp
    | cons v vs =>
      simp only [List.zip_cons_cons, List.map_cons, List.set_set]
      rw [ih vs]

theorem zip_map_append_set_idem (L : Nat) (rows : List (List Cell)) :
    ∀ vals : List Cell,
      (∀ r ∈ rows, r.length = L) →
      ((((rows.zip vals).map (fun rv => rv.1 ++ [rv.2])).zip vals).map
        (fun rv => rv.1.set L rv.2)) =
      (rows.zip vals).map (fun rv => rv.1 ++ [rv.2]) := by
  induction rows with
  | nil => intro vals _; simp
  | cons r rs ih =>
    intro vals hrect
    cases vals with
    | nil => simp
    | cons v vs =>
      simp only [List.zip_cons_cons, List.map_cons]
      have hr : r.length = L := hrect r (by simp)
      congr 1
      · rw [← hr, set_append_length_self]
      · exact ih vs (fun x hx => hrect x (by simp [hx]))

/-- Writing the derived `T` column a second time (with the same sample
period, over the already-augmented table) changes nothing: the row count
is unchanged by the first write, so the recomputed values coincide, and
rewriting a cell (or the appended last column) with its current value is
the identity. -/
theorem setColumn_T_idem (df : Table) (st : ℚ)
    (hrect : ∀ r ∈ df.rows, r.length = df.cols.length) :
    setColumn (setColumn df "T" (timeVals df st)) "T"
      (timeVals (setColumn df "T" (timeVals df st)) st) =
    setColumn df "T" (timeVals df st) := by
  have hvlen : (timeVals df st).length = df.rows.length := timeVals_length df st
  have htv : timeVals (setColumn df "T" (timeVals df st)) st = timeVals df st :=
    timeVals_eq_of_length _ df st (setColumn_rows_length df "T" _ hvlen)
  rw [htv]
  cases hfc : findCol df.cols "T" with
  | some j =>
    simp only [setColumn, hfc]
    rw [zip_map_set_idem j df.rows (timeVals df st)]
  | none =>
    simp only [setColumn, hfc]
    simp only [findCol_append_self df.cols "T" hfc]
    rw [zip_map_append_set_idem df.cols.length df.rows (timeVals df st) hrect]

/-- C10: calling `VFP600.curve` twice in succession at the same in-range
index returns equal tables: the first call writes the derived `T` column
into the stored curve, and the second call recomputes identical values
from the unchanged header and the unchanged row indices, so the observed
return value is idempotent. -/
theorem c10_curve_idempotent (p : GamryParserState) (c : ℤ) (df t1 t2 : Table)
    (p1 p2 : GamryParserState)
    (hdf : pyGet p.curves c = some df)
    (hrect : ∀ r ∈ df.rows, r.length = df.cols.length)
    (h1 : VFP600.curve p c = PResult.ok (t1, p1))
    (h2 : VFP600.curve p1 c = PResult.ok (t2, p2)) :
    t2 = t1 := by
  by_cases hl : p.loaded = true
  case neg => simp only [VFP600.curve, hl, if_false] at h1; cases h1
  case pos =>
  simp only [VFP600.curve, hl, if_true, hdf] at h1
  cases hpr : project (setColumn df "T" (timeVals df (VFP600.sample_time p)))
      ["T", "Voltage", "Current"] with
  | none => simp [hpr] at h1
  | some out =>
    simp only [hpr] at h1
    cases h1
    have hget : pyGet (pySet p.curves c
          (setColumn df "T" (timeVals df (VFP600.sample_time p)))) c
        = some (setColumn df "T" (timeVals df (VFP600.sample_time p))) :=
      pyGet_pySet_self p.curves c df _ hdf
    have hst : VFP600.sample_time
        ⟨true, p.header, pySet p.curves c
          (setColumn df "T" (timeVals df (VFP600.sample_time p)))⟩
        = VFP600.sample_time p := rfl
    simp only [VFP600.curve, hget, hst, eq_self_iff_true, if_true] at h2
    rw [setColumn_T_idem df (VFP600.sample_time p) hrect] at h2
    simp only [hpr] at h2
    cases h2
    rfl

/-- C10 witness: on the concrete loaded parser `loadedVC`, two successive
`curve 0` calls return the same table. -/
theorem c10_curve_idempotent_witness :
    (⟨["T", "Voltage", "Current"], []⟩ : Table) =
      ⟨["T", "Voltage", "Current"], []⟩ :=
  c10_curve_idempotent loadedVC 0 ⟨["Voltage", "Current"], []⟩
    ⟨["T", "Voltage", "Current"], []⟩ ⟨["T", "Voltage", "Current"], []⟩
    loadedVCAfter loadedVCAfter (by decide) (by decide) (by decide) (by decide)
